import Mathlib

/-!
Verification of the streaming relay and connection registry of
`src/backend/app.py` (Flask-SocketIO bridge over the CrewAI framework).

The embedding models the own logic of the module faithfully:
* `StreamEvent` is the tagged event pushed over the socket
  (`{token: ...}`, `{error: ...}`, `{done: true}`).
* `JValue` models a decoded Python/JSON value; `PyData` models the raw
  inbound websocket payload (either a string still to be decoded by
  `json.loads`, or already-decoded structured data).
* The external pieces (the `json.loads` decoder, LLM availability, and
  what the CrewAI generation run does) are parameters: `json.loads` is a
  `String → Option JValue` argument (`none` models `JSONDecodeError`),
  LLM availability is a `Bool` (`self.llm` being `None` or not), and the
  generation run is a `GenOutcome` (the tokens streamed through the
  observer, and whether `crew.kickoff()` returned or raised).
* Python exceptions inside repository code are explicit `Except` values;
  the exception messages mirror those of CPython (for example, that an
  int object has no attribute get).
-/

/-- A streamed event, as emitted with `socketio.emit` on the message
channel:
`{token: t}`, `{error: m}` or `{done: true}`. -/
inductive StreamEvent where
  | token (text : String)
  | error (msg : String)
  | done
deriving DecidableEq, Repr

/-- A decoded Python value (the result of `json.loads`, or structured
data handed over directly by the transport). -/
inductive JValue where
  | vnull
  | vbool (b : Bool)
  | vnum (n : Int)
  | vstr (s : String)
  | varr (elems : List JValue)
  | vobj (fields : List (String × JValue))

/-- The raw payload of a websocket `message` event: either a string
(which `handle_message` passes through `json.loads`) or structured data. -/
inductive PyData where
  | pyStr (s : String)
  | pyVal (v : JValue)

/-- The Python type name of a value, as it appears in CPython error
messages about an object lacking an attribute. -/
def pyTypeName : JValue → String
  | .vnull => "NoneType"
  | .vbool _ => "bool"
  | .vnum _ => "int"
  | .vstr _ => "str"
  | .varr _ => "list"
  | .vobj _ => "dict"

/-- Whether the value is a mapping (a Python `dict`), i.e. whether
`.get` is available on it. -/
def pyIsObj : JValue → Bool
  | .vobj _ => true
  | _ => false

/-- Python truthiness (`if not x` tests): `None`, `False`, `0`, `""`,
`[]` and `{}` are falsy, everything else truthy. -/
def jTruthy : JValue → Bool
  | .vnull => false
  | .vbool b => b
  | .vnum n => n != 0
  | .vstr s => s != ""
  | .varr xs => !xs.isEmpty
  | .vobj fs => !fs.isEmpty

mutual

/-- Python `repr` of a value (used by `str` on containers). String
escaping inside `repr` is not needed by any claim and is omitted. -/
def pyRepr : JValue → String
  | .vnull => "None"
  | .vbool b => if b then "True" else "False"
  | .vnum n => toString n
  | .vstr s => "\x27" ++ s ++ "\x27"
  | .varr xs => "[" ++ String.intercalate ", " (pyReprList xs) ++ "]"
  | .vobj fs => "\x7b" ++ String.intercalate ", " (pyReprFields fs) ++ "\x7d"

/-- Python repr of each element of a list. -/
def pyReprList : List JValue → List String
  | [] => []
  | v :: vs => pyRepr v :: pyReprList vs

/-- Python repr of each `key: value` entry of a dict. -/
def pyReprFields : List (String × JValue) → List String
  | [] => []
  | (k, v) :: fs => ("\x27" ++ k ++ "\x27: " ++ pyRepr v) :: pyReprFields fs

end

/-- Python `str` of a value, as an f-string placeholder renders it. -/
def pyStr : JValue → String
  | .vstr s => s
  | v => pyRepr v

/-- Python `str.capitalize()`: first character upper-cased, the rest
lower-cased. -/
def pyCapitalize (s : String) : String :=
  match s.data with
  | [] => ""
  | c :: cs => String.mk (c.toUpper :: cs.map Char.toLower)

/-- Python `dict.get(key, default)` on the field list of a decoded object. -/
def dictGet (fields : List (String × JValue)) (key : String)
    (dflt : JValue) : JValue :=
  (fields.lookup key).getD dflt

/-- The body of the `for msg in conversation_history` loop of
`_format_conversation_history`, with the accumulated `formatted_history`
string threaded through. A non-dict element makes `msg.get` raise
`AttributeError`; a non-string role makes `role.capitalize()` raise. -/
def formatTurns : List JValue → String → Except String String
  | [], acc => .ok acc
  | msg :: rest, acc =>
    match msg with
    | .vobj fs =>
      match dictGet fs "role" (.vstr "unknown") with
      | .vstr role =>
          let content := dictGet fs "content" (.vstr "")
          formatTurns rest
            (acc ++ pyCapitalize role ++ ": " ++ pyStr content ++ "\n\n")
      | r => .error ("\x27" ++ pyTypeName r ++
          "\x27 object has no attribute \x27capitalize\x27")
    | _ => .error ("\x27" ++ pyTypeName msg ++
        "\x27 object has no attribute \x27get\x27")

/-- The method `_format_conversation_history`. A falsy history (`None`,
`[]`, ...) yields the fixed placeholder; a truthy list is iterated by
`formatTurns`; iterating a truthy non-list either raises `TypeError`
(`int`, `bool`) or yields strings (`str` iterates characters, `dict`
iterates keys) on which `msg.get` raises `AttributeError`. -/
def format_conversation_history (conversation_history : JValue) :
    Except String String :=
  if jTruthy conversation_history then
    match conversation_history with
    | .varr msgs => formatTurns msgs ""
    | .vstr _ => .error "\x27str\x27 object has no attribute \x27get\x27"
    | .vobj _ => .error "\x27str\x27 object has no attribute \x27get\x27"
    | .vnum _ => .error "\x27int\x27 object is not iterable"
    | .vbool _ => .error "\x27bool\x27 object is not iterable"
    | .vnull => .ok "No previous conversation."
  else
    .ok "No previous conversation."

/-- What the external CrewAI run does once dispatched: either the
observer streams some tokens and `crew.kickoff()` returns, or it streams
some tokens and then the call raises with message `excMsg`. -/
inductive GenOutcome where
  | success (tokens : List String)
  | failure (tokensBefore : List String) (excMsg : String)
deriving DecidableEq, Repr

/-- The event sequence emitted by the background worker `run_process`:
the LLM-availability check (raising `ValueError` if `self.llm` is
`None`), the synthetic "Starting ..." token, the streamed tokens, then
either `{done}` or — on any exception, caught by the except block of
the worker — `{error: "Processing error: ..."}` then `{done}`. -/
def run_process (llmAvailable : Bool) (outcome : GenOutcome) :
    List StreamEvent :=
  if llmAvailable then
    StreamEvent.token "Starting to process your request..." ::
    match outcome with
    | .success toks => toks.map StreamEvent.token ++ [StreamEvent.done]
    | .failure toks m =>
        toks.map StreamEvent.token ++
          [StreamEvent.error ("Processing error: " ++ m), StreamEvent.done]
  else
    [StreamEvent.error "Processing error: LLM is not initialized properly",
     StreamEvent.done]

/-- Result of handling one inbound `message` event: the events
`handle_message` emits synchronously on the accept path, whether a
background worker thread was started (the only place the external agent
is invoked), and the events that worker emits. -/
structure MessageResult where
  syncEvents : List StreamEvent
  spawned : Bool
  workerEvents : List StreamEvent
deriving DecidableEq, Repr

/-- The method `process_streaming`: formats the conversation history
in the thread of the caller (an exception here propagates to
`handle_message`), then starts `run_process` on a background thread. -/
def process_streaming (llmAvailable : Bool) (outcome : GenOutcome)
    (conversation_history : JValue) : Except String MessageResult :=
  match format_conversation_history conversation_history with
  | .error e => .error e
  | .ok _ => .ok ⟨[], true, run_process llmAvailable outcome⟩

/-- The body of `handle_message` after `json.loads`: the four
`message_data.get(...)` calls (raising `AttributeError` unless
`message_data` is a dict) and the call to `process_streaming`. -/
def handleDecoded (llmAvailable : Bool) (outcome : GenOutcome)
    (message_data : JValue) : Except String MessageResult :=
  match message_data with
  | .vobj fs =>
      process_streaming llmAvailable outcome
        (dictGet fs "conversation_history" (.varr []))
  | v => .error ("\x27" ++ pyTypeName v ++
      "\x27 object has no attribute \x27get\x27")

/-- The socket `message` handler `handle_message`. `dec` models
`json.loads` (`none` = `JSONDecodeError`). A decode failure is answered
synchronously with the fixed invalid-format error and `{done}`; any
other exception in the `try` block is answered synchronously with
`{error: "Server error: ..."}` and `{done}`; otherwise the worker is
spawned and emits its own events. -/
def handle_message (dec : String → Option JValue) (llmAvailable : Bool)
    (outcome : GenOutcome) (data : PyData) : MessageResult :=
  let decoded : Except String JValue :=
    match data with
    | .pyStr s =>
        match dec s with
        | none => .error ""
        | some v => .ok v
    | .pyVal v => .ok v
  match decoded with
  | .error _ =>
      ⟨[StreamEvent.error "Invalid message format. Expected JSON.",
        StreamEvent.done], false, []⟩
  | .ok v =>
      match handleDecoded llmAvailable outcome v with
      | .ok r => r
      | .error e =>
          ⟨[StreamEvent.error ("Server error: " ++ e), StreamEvent.done],
           false, []⟩

/-- All events the client session receives for one request, in order:
the synchronous ones, then the worker events. -/
def allEvents (r : MessageResult) : List StreamEvent :=
  r.syncEvents ++ r.workerEvents

/-- Number of `done` events in a sequence. -/
def countDone (es : List StreamEvent) : Nat :=
  (es.filter (· = StreamEvent.done)).length

/-- A registry entry: `{connected_at: ..., ip: ...}`. -/
structure Session where
  connected_at : Nat
  ip : String
deriving DecidableEq, Repr

/-- The `active_connections` dict, keyed by session id. -/
abbrev Registry := List (String × Session)

/-- Whether a key is present (`sid in active_connections`). -/
def hasKey (reg : Registry) (sid : String) : Bool :=
  reg.any (fun p => p.1 = sid)

/-- Python dict assignment `active_connections[sid] = s`: replaces the
binding if the key is present, otherwise appends it. -/
def dictSet (reg : Registry) (sid : String) (s : Session) : Registry :=
  if hasKey reg sid then
    reg.map (fun p => if p.1 = sid then (sid, s) else p)
  else
    reg ++ [(sid, s)]

/-- The connect handler `handle_connect`: records the session in
`active_connections` and
emits the fixed greeting token followed by `{done: true}`. -/
def handle_connect (reg : Registry) (sid : String) (now : Nat)
    (ip : String) : Registry × List StreamEvent :=
  (dictSet reg sid ⟨now, ip⟩,
   [StreamEvent.token "Connected to server successfully. Ready for messages!",
    StreamEvent.done])

/-- The disconnect handler `handle_disconnect`, performing
`if sid in active_connections: del ...`. -/
def handle_disconnect (reg : Registry) (sid : String) : Registry :=
  if hasKey reg sid then reg.filter (fun p => p.1 ≠ sid) else reg

/-- A connect or disconnect event observed by the registry. -/
inductive ConnEvent where
  | connect (sid : String) (now : Nat) (ip : String)
  | disconnect (sid : String)
deriving DecidableEq, Repr

/-- Registry update performed by one event. -/
def applyEvent (reg : Registry) : ConnEvent → Registry
  | .connect sid now ip => (handle_connect reg sid now ip).1
  | .disconnect sid => handle_disconnect reg sid

/-- Run a trace of connect/disconnect events against the registry. -/
def runEvents (reg : Registry) (tr : List ConnEvent) : Registry :=
  tr.foldl applyEvent reg

/-- Number of connect events in a trace. -/
def countConnects (tr : List ConnEvent) : Nat :=
  (tr.filter (fun e => match e with | .connect _ _ _ => true | _ => false)).length

/-- Number of disconnect events in a trace. -/
def countDisconnects (tr : List ConnEvent) : Nat :=
  (tr.filter (fun e => match e with | .disconnect _ => true | _ => false)).length

/-- A trace is well formed from a registry state when every connect uses
a fresh session id and every disconnect targets a registered session —
the shape of traces the transport actually delivers (one connect and at
most one disconnect per socket lifetime). -/
def wfFrom (reg : Registry) : List ConnEvent → Bool
  | [] => true
  | e :: rest =>
    (match e with
     | .connect sid _ _ => !hasKey reg sid
     | .disconnect sid => hasKey reg sid) &&
    wfFrom (applyEvent reg e) rest

lemma countDone_append (a b : List StreamEvent) :
    countDone (a ++ b) = countDone a + countDone b := by
  simp [countDone, List.filter_append]

lemma countDone_map_token (toks : List String) :
    countDone (toks.map StreamEvent.token) = 0 := by
  induction toks with
  | nil => rfl
  | cons t ts ih => simp [countDone, List.filter]

lemma getLast?_append_one (l : List StreamEvent) (a : StreamEvent) :
    (l ++ [a]).getLast? = some a := by
  induction l with
  | nil => rfl
  | cons b bs ih =>
    rw [List.cons_append, List.getLast?_cons, ih]
    rfl

lemma countDone_cons (e : StreamEvent) (es : List StreamEvent) :
    countDone (e :: es) =
      (if e = StreamEvent.done then 1 else 0) + countDone es := by
  by_cases h : e = StreamEvent.done <;>
    simp [countDone, List.filter_cons, h, Nat.add_comm]

lemma run_process_done (llm : Bool) (o : GenOutcome) :
    countDone (run_process llm o) = 1 ∧
    (run_process llm o).getLast? = some StreamEvent.done := by
  cases llm with
  | false => cases o <;> exact ⟨rfl, rfl⟩
  | true =>
    cases o with
    | success toks =>
      refine ⟨?_, ?_⟩
      · simp [run_process, countDone_cons, countDone_append,
          countDone_map_token, countDone]
      · show (StreamEvent.token _ ::
            (toks.map StreamEvent.token ++ [StreamEvent.done])).getLast? = _
        rw [← List.cons_append]
        exact getLast?_append_one _ _
    | failure toks m =>
      refine ⟨?_, ?_⟩
      · simp [run_process, countDone_cons, countDone_append,
          countDone_map_token, countDone]
      · show (StreamEvent.token _ ::
            (toks.map StreamEvent.token ++
              [StreamEvent.error _, StreamEvent.done])).getLast? = _
        rw [← List.cons_append,
          show [StreamEvent.error ("Processing error: " ++ m), StreamEvent.done] =
            [StreamEvent.error ("Processing error: " ++ m)] ++ [StreamEvent.done]
            from rfl, ← List.append_assoc]
        exact getLast?_append_one _ _

lemma handleDecoded_shape (llm : Bool) (o : GenOutcome) (v : JValue) :
    (∃ e, handleDecoded llm o v = .error e) ∨
    handleDecoded llm o v = .ok ⟨[], true, run_process llm o⟩ := by
  cases v with
  | vobj fs =>
    simp only [handleDecoded, process_streaming]
    cases h : format_conversation_history (dictGet fs "conversation_history" (.varr [])) with
    | error e => exact Or.inl ⟨e, rfl⟩
    | ok s => exact Or.inr rfl
  | vnull => exact Or.inl ⟨_, rfl⟩
  | vbool b => exact Or.inl ⟨_, rfl⟩
  | vnum n => exact Or.inl ⟨_, rfl⟩
  | vstr s => exact Or.inl ⟨_, rfl⟩
  | varr xs => exact Or.inl ⟨_, rfl⟩

lemma handle_message_shape (dec : String → Option JValue) (llm : Bool)
    (o : GenOutcome) (data : PyData) :
    (∃ e, handle_message dec llm o data =
        ⟨[StreamEvent.error e, StreamEvent.done], false, []⟩) ∨
    handle_message dec llm o data = ⟨[], true, run_process llm o⟩ := by
  have hval : ∀ v : JValue,
      (∃ e, (match handleDecoded llm o v with
        | .ok r => r
        | .error e =>
            ⟨[StreamEvent.error ("Server error: " ++ e), StreamEvent.done],
             false, []⟩ : MessageResult) =
          ⟨[StreamEvent.error e, StreamEvent.done], false, []⟩) ∨
      (match handleDecoded llm o v with
        | .ok r => r
        | .error e =>
            ⟨[StreamEvent.error ("Server error: " ++ e), StreamEvent.done],
             false, []⟩ : MessageResult) = ⟨[], true, run_process llm o⟩ := by
    intro v
    rcases handleDecoded_shape llm o v with ⟨e, he⟩ | hok
    · exact Or.inl ⟨_, by rw [he]⟩
    · exact Or.inr (by rw [hok])
  cases data with
  | pyStr s =>
    cases hdec : dec s with
    | none =>
      exact Or.inl ⟨"Invalid message format. Expected JSON.",
        by simp [handle_message, hdec]⟩
    | some v => simpa [handle_message, hdec] using hval v
  | pyVal v => simpa [handle_message] using hval v

/-- C1: for every inbound chat request — normal completion, agent
unavailable, or an exception during decode, dispatch or generation — the
full event sequence the session receives contains exactly one `done`
event and terminates with it. -/
theorem C1_every_request_ends_in_one_done (dec : String → Option JValue)
    (llm : Bool) (o : GenOutcome) (data : PyData) :
    countDone (allEvents (handle_message dec llm o data)) = 1 ∧
    (allEvents (handle_message dec llm o data)).getLast? =
      some StreamEvent.done := by
  rcases handle_message_shape dec llm o data with ⟨e, h⟩ | h <;> rw [h]
  · simp [allEvents, countDone, List.filter]
  · simpa [allEvents] using run_process_done llm o

/-- C2: a string payload that `json.loads` cannot decode is answered
synchronously with exactly `[Error "Invalid message format. Expected
JSON.", Done]`, no token, no background worker (hence no agent call). -/
theorem C2_malformed_payload (dec : String → Option JValue) (llm : Bool)
    (o : GenOutcome) (s : String) (h : dec s = none) :
    handle_message dec llm o (.pyStr s) =
      ⟨[StreamEvent.error "Invalid message format. Expected JSON.",
        StreamEvent.done], false, []⟩ := by
  simp [handle_message, h]

/-- C2 witness: the literal payload `"not json"` under a decoder that
rejects it. -/
theorem C2_malformed_payload_witness :
    (fun _ : String => (none : Option JValue)) "not json" = none ∧
    handle_message (fun _ => none) true (.success ["tok"]) (.pyStr "not json") =
      ⟨[StreamEvent.error "Invalid message format. Expected JSON.",
        StreamEvent.done], false, []⟩ :=
  ⟨rfl, C2_malformed_payload (fun _ => none) true (.success ["tok"]) "not json" rfl⟩


/-- A fully populated conversation turn `(role, content)`, matching the
inbound message shape, embedded as the dict with role and content keys. -/
def turnJ (t : String × String) : JValue :=
  .vobj [("role", .vstr t.1), ("content", .vstr t.2)]

/-- The rendering of one turn: capitalized role, colon, content, then a
blank line. -/
def renderTurn (t : String × String) : String :=
  pyCapitalize t.1 ++ ": " ++ t.2 ++ "\n\n"

/-- Concatenation of rendered blocks. -/
def joinBlocks : List String → String
  | [] => ""
  | b :: bs => b ++ joinBlocks bs

lemma formatTurns_turnJ (ts : List (String × String)) :
    ∀ acc : String, formatTurns (ts.map turnJ) acc =
      .ok (acc ++ joinBlocks (ts.map renderTurn)) := by
  induction ts with
  | nil => intro acc; simp [formatTurns, joinBlocks]
  | cons t ts ih =>
    intro acc
    simp only [List.map_cons, formatTurns, turnJ, dictGet, List.lookup]
    rw [show (("role" : String) == "role") = true from rfl]
    simp only [Option.getD_some]
    rw [ih]
    simp [joinBlocks, renderTurn, pyStr, String.append_assoc]

/-- C3: formatting an empty or absent conversation history yields the
fixed placeholder "No previous conversation."; formatting a non-empty
history of turns yields the blocks rendered in original order, each
"<Role>: <content>" with the role capitalized and followed by a blank
line. -/
theorem C3_conversation_history_formatting (t : String × String)
    (ts : List (String × String)) :
    format_conversation_history .vnull = .ok "No previous conversation." ∧
    format_conversation_history (.varr []) = .ok "No previous conversation." ∧
    format_conversation_history (.varr ((t :: ts).map turnJ)) =
      .ok (joinBlocks ((t :: ts).map renderTurn)) := by
  refine ⟨rfl, rfl, ?_⟩
  have h := formatTurns_turnJ (t :: ts) ""
  simp only [format_conversation_history, jTruthy, List.map_cons,
    List.isEmpty_cons, Bool.not_false, if_true] at h ⊢
  rw [h]
  simp [String.empty_append]

/-- C4: when the LLM is unavailable the worker emits exactly the error
and one done; when generation raises after streaming some tokens, the
worker emits the streamed prefix, then an error carrying the failure
message, then exactly one done — nothing after the error but the done,
and the exception is absorbed at the worker boundary (the event list is
the entire effect of the worker). -/
theorem C4_generation_failure_error_done (o : GenOutcome)
    (toks : List String) (m : String) :
    run_process false o =
      [StreamEvent.error "Processing error: LLM is not initialized properly",
       StreamEvent.done] ∧
    run_process true (.failure toks m) =
      StreamEvent.token "Starting to process your request..." ::
        (toks.map StreamEvent.token ++
          [StreamEvent.error ("Processing error: " ++ m), StreamEvent.done]) ∧
    countDone (run_process true (.failure toks m)) = 1 := by
  refine ⟨?_, rfl, (run_process_done true (.failure toks m)).1⟩
  cases o <;> rfl

/-- Keys of a registry state are pairwise distinct (a Python dict cannot
hold a key twice). -/
def nodupKeys (reg : Registry) : Prop := (reg.map Prod.fst).Nodup

lemma hasKey_iff (reg : Registry) (sid : String) :
    hasKey reg sid = true ↔ sid ∈ reg.map Prod.fst := by
  simp [hasKey, List.any_eq_true, List.mem_map]

lemma hasKey_cons (p : String × Session) (rest : Registry) (sid : String) :
    hasKey (p :: rest) sid = (decide (p.1 = sid) || hasKey rest sid) := by
  simp [hasKey, List.any_cons]

lemma hasKey_cons_false (p : String × Session) (rest : Registry)
    (sid : String) (h : hasKey (p :: rest) sid = false) :
    ¬(p.1 = sid) ∧ hasKey rest sid = false := by
  rw [hasKey_cons, Bool.or_eq_false_iff] at h
  exact ⟨by simpa using h.1, h.2⟩

lemma length_filter_ne_key (reg : Registry) (sid : String) :
    nodupKeys reg → hasKey reg sid = true →
      ((reg.filter (fun p => p.1 ≠ sid)).length : Int) =
        (reg.length : Int) - 1 := by
  induction reg with
  | nil => intro _ h; simp [hasKey] at h
  | cons p rest ih =>
    intro hnd hk
    rw [nodupKeys, List.map_cons, List.nodup_cons] at hnd
    have hnd' : nodupKeys rest := hnd.2
    by_cases hp : p.1 = sid
    · have hfilter : rest.filter (fun q => q.1 ≠ sid) = rest := by
        apply List.filter_eq_self.mpr
        intro q hq
        simp only [decide_eq_true_eq]
        intro he
        exact hnd.1 (by rw [hp, ← he]; exact List.mem_map_of_mem Prod.fst hq)
      rw [List.filter_cons, if_neg (by simp [hp]), hfilter]
      simp only [List.length_cons]
      push_cast
      omega
    · have hk' : hasKey rest sid = true := by
        rw [hasKey_cons] at hk
        simpa [hp] using hk
      have hlen := ih hnd' hk'
      rw [List.filter_cons, if_pos (by simpa using hp)]
      simp only [List.length_cons]
      push_cast at hlen ⊢
      omega

lemma countConnects_cons (e : ConnEvent) (tr : List ConnEvent) :
    countConnects (e :: tr) =
      (match e with | .connect _ _ _ => 1 | .disconnect _ => 0) +
        countConnects tr := by
  cases e <;> simp [countConnects, List.filter_cons, Nat.add_comm]

lemma countDisconnects_cons (e : ConnEvent) (tr : List ConnEvent) :
    countDisconnects (e :: tr) =
      (match e with | .connect _ _ _ => 0 | .disconnect _ => 1) +
        countDisconnects tr := by
  cases e <;> simp [countDisconnects, List.filter_cons, Nat.add_comm]

lemma runEvents_length_int (tr : List ConnEvent) :
    ∀ reg : Registry, nodupKeys reg → wfFrom reg tr = true →
      ((runEvents reg tr).length : Int) =
        (reg.length : Int) + countConnects tr - countDisconnects tr := by
  induction tr with
  | nil =>
    intro reg _ _
    simp [runEvents, countConnects, countDisconnects]
  | cons e rest ih =>
    intro reg hnd hwf
    have hrun : runEvents reg (e :: rest) = runEvents (applyEvent reg e) rest := by
      simp [runEvents]
    cases e with
    | connect sid now ip =>
      simp only [wfFrom, Bool.and_eq_true] at hwf
      obtain ⟨he, hrest⟩ := hwf
      have hfresh : hasKey reg sid = false := by simpa using he
      have happ : applyEvent reg (.connect sid now ip) =
          reg ++ [(sid, ⟨now, ip⟩)] := by
        simp [applyEvent, handle_connect, dictSet, hfresh]
      have hnd' : nodupKeys (reg ++ [(sid, (⟨now, ip⟩ : Session))]) := by
        rw [nodupKeys, List.map_append, List.map_cons, List.map_nil]
        refine List.Nodup.append (by rwa [nodupKeys] at hnd)
          (List.nodup_singleton sid) ?_
        intro a ha hb
        rw [List.mem_singleton] at hb
        subst hb
        rw [← hasKey_iff] at ha
        rw [hfresh] at ha
        exact absurd ha (by simp)
      have hlen := ih (reg ++ [(sid, ⟨now, ip⟩)]) hnd' (by rw [← happ]; exact hrest)
      rw [hrun, happ, hlen, countConnects_cons, countDisconnects_cons]
      simp only [List.length_append, List.length_cons, List.length_nil]
      push_cast
      omega
    | disconnect sid =>
      simp only [wfFrom, Bool.and_eq_true] at hwf
      obtain ⟨he, hrest⟩ := hwf
      have hpres : hasKey reg sid = true := he
      have happ : applyEvent reg (.disconnect sid) =
          reg.filter (fun p => p.1 ≠ sid) := by
        simp [applyEvent, handle_disconnect, hpres]
      have hnd' : nodupKeys (reg.filter (fun p => p.1 ≠ sid)) := by
        have hsub : List.Sublist ((reg.filter (fun p => p.1 ≠ sid)).map Prod.fst)
            (reg.map Prod.fst) :=
          List.Sublist.map Prod.fst (List.filter_sublist reg)
        exact List.Nodup.sublist hsub hnd
      have hlen := ih _ hnd' (by rw [← happ]; exact hrest)
      have hdel := length_filter_ne_key reg sid hnd hpres
      rw [hrun, happ, hlen, countConnects_cons, countDisconnects_cons, hdel]
      push_cast
      omega

/-- C5 counterexample: the trace connect "s", disconnect "s",
disconnect "s" (a duplicate disconnect, which `handle_disconnect`
deliberately treats as a no-op) leaves the registry empty (size 0),
while connects minus disconnects is 1 - 2 = -1. -/
theorem C5_counterexample_duplicate_disconnect :
    ¬ (((runEvents [] [ConnEvent.connect "s" 0 "ip",
          ConnEvent.disconnect "s", ConnEvent.disconnect "s"]).length : Int) =
        (countConnects [ConnEvent.connect "s" 0 "ip",
          ConnEvent.disconnect "s", ConnEvent.disconnect "s"] : Int) -
        countDisconnects [ConnEvent.connect "s" 0 "ip",
          ConnEvent.disconnect "s", ConnEvent.disconnect "s"]) := by
  decide

/-- C5 (amended): for well-formed traces — every connect uses a fresh
session id and every disconnect targets a currently registered id, the
shape the transport delivers — the registry size always equals the
number of connect events minus the number of disconnect events. -/
theorem C5_registry_size_wellformed (tr : List ConnEvent)
    (h : wfFrom [] tr = true) :
    ((runEvents [] tr).length : Int) =
      (countConnects tr : Int) - countDisconnects tr := by
  have := runEvents_length_int tr [] (by simp [nodupKeys]) h
  simpa using this

/-- C5 witness: a well-formed trace of two connects and one disconnect,
leaving one registered session. -/
theorem C5_registry_size_wellformed_witness :
    wfFrom [] [ConnEvent.connect "a" 0 "ip1", ConnEvent.connect "b" 1 "ip2",
      ConnEvent.disconnect "a"] = true ∧
    ((runEvents [] [ConnEvent.connect "a" 0 "ip1",
        ConnEvent.connect "b" 1 "ip2", ConnEvent.disconnect "a"]).length : Int) =
      (countConnects [ConnEvent.connect "a" 0 "ip1",
        ConnEvent.connect "b" 1 "ip2", ConnEvent.disconnect "a"] : Int) -
      countDisconnects [ConnEvent.connect "a" 0 "ip1",
        ConnEvent.connect "b" 1 "ip2", ConnEvent.disconnect "a"] :=
  ⟨by decide, C5_registry_size_wellformed
    [ConnEvent.connect "a" 0 "ip1", ConnEvent.connect "b" 1 "ip2",
      ConnEvent.disconnect "a"] (by decide)⟩

/-- Python dict lookup (`active_connections[sid]`). -/
def regLookup : Registry → String → Option Session
  | [], _ => none
  | (k, v) :: rest, sid => if k = sid then some v else regLookup rest sid

lemma regLookup_map_set (reg : Registry) (sid : String) (s : Session)
    (h : hasKey reg sid = true) :
    regLookup (reg.map (fun p => if p.1 = sid then (sid, s) else p)) sid =
      some s := by
  induction reg with
  | nil => simp [hasKey] at h
  | cons p rest ih =>
    obtain ⟨k, v⟩ := p
    rw [List.map_cons]
    by_cases hp : k = sid
    · rw [show (if ((k, v) : String × Session).1 = sid then (sid, s) else (k, v)) =
          (sid, s) from if_pos hp]
      show (if sid = sid then some s
        else regLookup (rest.map (fun p => if p.1 = sid then (sid, s) else p)) sid) =
          some s
      rw [if_pos rfl]
    · rw [show (if ((k, v) : String × Session).1 = sid then (sid, s) else (k, v)) =
          (k, v) from if_neg hp]
      rw [hasKey_cons] at h
      have h' : hasKey rest sid = true := by simpa [hp] using h
      show (if k = sid then some v
        else regLookup (rest.map (fun p => if p.1 = sid then (sid, s) else p)) sid) =
          some s
      rw [if_neg hp]
      exact ih h'

lemma regLookup_append_fresh (reg : Registry) (sid : String) (s : Session)
    (h : hasKey reg sid = false) :
    regLookup (reg ++ [(sid, s)]) sid = some s := by
  induction reg with
  | nil => simp [regLookup]
  | cons p rest ih =>
    obtain ⟨k, v⟩ := p
    obtain ⟨hk, hrest⟩ := hasKey_cons_false (k, v) rest sid h
    rw [List.cons_append]
    show (if k = sid then some v else regLookup (rest ++ [(sid, s)]) sid) =
      some s
    rw [if_neg hk]
    exact ih hrest

/-- C6: `handle_connect` records the session — connect time and peer
address keyed by the session id — in the registry, and emits the fixed
greeting token followed by a done event. -/
theorem C6_connect_records_session_and_greets (reg : Registry)
    (sid : String) (now : Nat) (ip : String) :
    regLookup (handle_connect reg sid now ip).1 sid = some ⟨now, ip⟩ ∧
    (handle_connect reg sid now ip).2 =
      [StreamEvent.token "Connected to server successfully. Ready for messages!",
       StreamEvent.done] := by
  refine ⟨?_, rfl⟩
  show regLookup (dictSet reg sid ⟨now, ip⟩) sid = some ⟨now, ip⟩
  by_cases h : hasKey reg sid
  · rw [dictSet, if_pos h]
    exact regLookup_map_set reg sid _ h
  · rw [dictSet, if_neg h]
    exact regLookup_append_fresh reg sid _ (by simpa using h)

/-- C7: disconnect is idempotent — a disconnect for an id that is not in
the registry (e.g. a duplicate disconnect) leaves the registry unchanged
(and `handle_disconnect` is a total function, so no error is raised),
and after any disconnect the id is no longer registered. -/
theorem C7_disconnect_idempotent (reg : Registry) (sid : String) :
    (hasKey reg sid = false → handle_disconnect reg sid = reg) ∧
    hasKey (handle_disconnect reg sid) sid = false := by
  constructor
  · intro h
    rw [handle_disconnect, if_neg (by simp [h])]
  · by_cases h : hasKey reg sid
    · rw [handle_disconnect, if_pos h]
      rw [← Bool.not_eq_true, hasKey_iff]
      intro hmem
      rw [List.mem_map] at hmem
      obtain ⟨p, hp, hps⟩ := hmem
      rw [List.mem_filter] at hp
      exact absurd hps (by simpa using hp.2)
    · rw [handle_disconnect, if_neg h]
      simpa using h

/-- C7 witness: disconnecting an unregistered id "b" leaves a one-entry
registry untouched. -/
theorem C7_disconnect_idempotent_witness :
    hasKey [(("a" : String), (⟨0, "ip"⟩ : Session))] "b" = false ∧
    handle_disconnect [(("a" : String), (⟨0, "ip"⟩ : Session))] "b" =
      [(("a" : String), (⟨0, "ip"⟩ : Session))] ∧
    hasKey (handle_disconnect [(("a" : String), (⟨0, "ip"⟩ : Session))] "b")
      "b" = false :=
  ⟨by decide,
   (C7_disconnect_idempotent [("a", ⟨0, "ip"⟩)] "b").1 (by decide),
   (C7_disconnect_idempotent [("a", ⟨0, "ip"⟩)] "b").2⟩

/-- C8: whenever a worker is actually spawned with the LLM available,
its first emitted event is the synthetic token "Starting to process your
request..." (emitted only after the availability check); when the LLM is
unavailable the worker emits no token at all, only the error and done. -/
theorem C8_synthetic_first_token (dec : String → Option JValue)
    (o : GenOutcome) (data : PyData) :
    ((handle_message dec true o data).spawned = true →
      (handle_message dec true o data).workerEvents.head? =
        some (StreamEvent.token "Starting to process your request...")) ∧
    run_process false o =
      [StreamEvent.error "Processing error: LLM is not initialized properly",
       StreamEvent.done] := by
  constructor
  · intro hsp
    rcases handle_message_shape dec true o data with ⟨e, h⟩ | h
    · rw [h] at hsp
      exact absurd hsp (by simp)
    · rw [h]
      cases o <;> rfl
  · cases o <;> rfl

/-- C8 witness: a valid empty-dict payload with the LLM available spawns
a worker whose first event is the synthetic token. -/
theorem C8_synthetic_first_token_witness :
    (handle_message (fun _ => none) true (.success ["t"])
      (.pyVal (.vobj []))).spawned = true ∧
    (handle_message (fun _ => none) true (.success ["t"])
      (.pyVal (.vobj []))).workerEvents.head? =
      some (StreamEvent.token "Starting to process your request...") :=
  ⟨rfl, (C8_synthetic_first_token (fun _ => none) (.success ["t"])
    (.pyVal (.vobj []))).1 rfl⟩

/-- C9: a decoded payload that is not a mapping (array, number,
string, bool or null — whether handed over directly or obtained by
decoding a string) is not treated as a malformed payload: the fixed
"Invalid message format. Expected JSON." error is not emitted; instead
the `AttributeError` from `message_data.get` is caught and answered with
an error starting with "Server error: " followed by exactly one done,
with no worker spawned. -/
theorem C9_non_mapping_payload_is_server_error (dec : String → Option JValue)
    (llm : Bool) (o : GenOutcome) (v : JValue) (s : String)
    (hv : pyIsObj v = false) (hs : dec s = some v) :
    handle_message dec llm o (.pyVal v) =
      ⟨[StreamEvent.error ("Server error: " ++ ("\x27" ++ pyTypeName v ++
          "\x27 object has no attribute \x27get\x27")), StreamEvent.done],
        false, []⟩ ∧
    handle_message dec llm o (.pyStr s) =
      ⟨[StreamEvent.error ("Server error: " ++ ("\x27" ++ pyTypeName v ++
          "\x27 object has no attribute \x27get\x27")), StreamEvent.done],
        false, []⟩ := by
  have hstr : handle_message dec llm o (.pyStr s) =
      handle_message dec llm o (.pyVal v) := by
    simp only [handle_message, hs]
  rw [hstr]
  refine ⟨?_, ?_⟩ <;>
    cases v with
    | vobj fs => simp [pyIsObj] at hv
    | vnull => rfl
    | vbool b => rfl
    | vnum n => rfl
    | vstr t => rfl
    | varr xs => rfl

/-- C9 witness: the decoded payload `42` (also reached by decoding the
string "42"). -/
theorem C9_non_mapping_payload_is_server_error_witness :
    pyIsObj (.vnum 42) = false ∧
    (fun x : String => if x = "42" then some (JValue.vnum 42) else none) "42" =
      some (JValue.vnum 42) ∧
    handle_message (fun x => if x = "42" then some (JValue.vnum 42) else none)
      true (.success ["t"]) (.pyStr "42") =
      ⟨[StreamEvent.error ("Server error: " ++ ("\x27" ++ pyTypeName (.vnum 42) ++
          "\x27 object has no attribute \x27get\x27")), StreamEvent.done],
        false, []⟩ :=
  ⟨rfl, by simp,
   (C9_non_mapping_payload_is_server_error
     (fun x => if x = "42" then some (JValue.vnum 42) else none)
     true (.success ["t"]) (.vnum 42) "42" rfl (by simp)).2⟩

lemma formatTurns_trailing_aux (msgs : List JValue) :
    ∀ acc out : String, formatTurns msgs acc = .ok out →
      out = acc ∨ ∃ pre : String, out = pre ++ "\n\n" := by
  induction msgs with
  | nil =>
    intro acc out h
    simp only [formatTurns] at h
    injection h with h
    exact Or.inl h.symm
  | cons m rest ih =>
    intro acc out h
    cases m with
    | vobj fs =>
      simp only [formatTurns] at h
      cases hrole : dictGet fs "role" (.vstr "unknown") with
      | vstr role =>
        rw [hrole] at h
        rcases ih _ _ h with heq | hex
        · exact Or.inr ⟨acc ++ pyCapitalize role ++ ": " ++
            pyStr (dictGet fs "content" (.vstr "")), by rw [heq]⟩
        · exact Or.inr hex
      | vnull => rw [hrole] at h; exact absurd h (by simp)
      | vbool b => rw [hrole] at h; exact absurd h (by simp)
      | vnum n => rw [hrole] at h; exact absurd h (by simp)
      | varr xs => rw [hrole] at h; exact absurd h (by simp)
      | vobj gs => rw [hrole] at h; exact absurd h (by simp)
    | vnull => exact absurd h (by simp [formatTurns])
    | vbool b => exact absurd h (by simp [formatTurns])
    | vnum n => exact absurd h (by simp [formatTurns])
    | vstr t => exact absurd h (by simp [formatTurns])
    | varr xs => exact absurd h (by simp [formatTurns])

lemma formatTurns_cons_trailing (m : JValue) (msgs : List JValue)
    (acc out : String) (h : formatTurns (m :: msgs) acc = .ok out) :
    ∃ pre : String, out = pre ++ "\n\n" := by
  cases m with
  | vobj fs =>
    simp only [formatTurns] at h
    cases hrole : dictGet fs "role" (.vstr "unknown") with
    | vstr role =>
      rw [hrole] at h
      rcases formatTurns_trailing_aux msgs _ _ h with heq | hex
      · exact ⟨acc ++ pyCapitalize role ++ ": " ++
          pyStr (dictGet fs "content" (.vstr "")), by rw [heq]⟩
      · exact hex
    | vnull => rw [hrole] at h; exact absurd h (by simp)
    | vbool b => rw [hrole] at h; exact absurd h (by simp)
    | vnum n => rw [hrole] at h; exact absurd h (by simp)
    | varr xs => rw [hrole] at h; exact absurd h (by simp)
    | vobj gs => rw [hrole] at h; exact absurd h (by simp)
  | vnull => exact absurd h (by simp [formatTurns])
  | vbool b => exact absurd h (by simp [formatTurns])
  | vnum n => exact absurd h (by simp [formatTurns])
  | vstr t => exact absurd h (by simp [formatTurns])
  | varr xs => exact absurd h (by simp [formatTurns])

/-- C10: `_format_conversation_history` is total on turns with missing
fields — a turn without a "role" key renders with the "Unknown: " prefix
(capitalized default "unknown"), a turn without a "content" key renders
with empty content — and every successfully formatted non-empty history
ends with a trailing blank line, since every block is followed by two
newlines. -/
theorem C10_missing_fields_and_trailing_blank_line (c r : String)
    (m : JValue) (msgs : List JValue) (out : String) :
    format_conversation_history (.varr [.vobj [("content", .vstr c)]]) =
      .ok ("Unknown: " ++ c ++ "\n\n") ∧
    format_conversation_history (.varr [.vobj [("role", .vstr r)]]) =
      .ok (pyCapitalize r ++ ": " ++ "\n\n") ∧
    (format_conversation_history (.varr (m :: msgs)) = .ok out →
      ∃ pre : String, out = pre ++ "\n\n") := by
  refine ⟨rfl, ?_, ?_⟩
  · have h2 : format_conversation_history (.varr [.vobj [("role", .vstr r)]]) =
        .ok ("" ++ pyCapitalize r ++ ": " ++ "" ++ "\n\n") := rfl
    rw [h2, String.append_empty, String.empty_append]
  · intro h
    have hT : formatTurns (m :: msgs) "" = .ok out := by
      have hunf : format_conversation_history (.varr (m :: msgs)) =
          formatTurns (m :: msgs) "" := by
        simp [format_conversation_history, jTruthy]
      rwa [hunf] at h
    exact formatTurns_cons_trailing m msgs "" out hT

/-- C10 witness: a one-field turn without role, one without content, and
a fully populated one-turn history ending in a blank line. -/
theorem C10_missing_fields_and_trailing_blank_line_witness :
    format_conversation_history (.varr [.vobj [("content", .vstr "hi")]]) =
      .ok ("Unknown: " ++ "hi" ++ "\n\n") ∧
    format_conversation_history (.varr [.vobj [("role", .vstr "user")]]) =
      .ok (pyCapitalize "user" ++ ": " ++ "\n\n") ∧
    (∃ pre : String, "User: hi\n\n" = pre ++ "\n\n") :=
  ⟨(C10_missing_fields_and_trailing_blank_line "hi" "user"
      (.vobj [("role", .vstr "user"), ("content", .vstr "hi")]) [] "User: hi\n\n").1,
   (C10_missing_fields_and_trailing_blank_line "hi" "user"
      (.vobj [("role", .vstr "user"), ("content", .vstr "hi")]) [] "User: hi\n\n").2.1,
   (C10_missing_fields_and_trailing_blank_line "hi" "user"
      (.vobj [("role", .vstr "user"), ("content", .vstr "hi")]) [] "User: hi\n\n").2.2
     (by rfl)⟩
